import Mathlib

/-!
# Verification of the TripExpenseTracker currency-conversion core

This file is a shallow embedding of the monetary/FX core of `src/app.js`
(the `app.js` of the TripExpenseTracker repository) into Lean 4, together
with theorems settling the spec claims about it.

Modelling conventions:
* JavaScript numbers are modelled as exact rationals (`ℚ`); integer cent and
  ppm amounts as `ℤ`.  `Math.round` is `jsRound` below (floor of `x + 1/2`,
  JavaScript rounds exact halves toward `+∞`).  Binary floating-point
  round-off is out of scope of this embedding.
* Calendar dates are modelled as integers ordered like
  `new Date(d).getTime()`; for the ISO `YYYY-MM-DD` strings the code uses,
  string-keyed equality (IndexedDB key lookups) coincides with integer
  equality, and the comparator arithmetic coincides with integer order.
* IndexedDB store contents are modelled as lists carried in an `Env` value;
  the store keyed by date (`fxRates`) has one row per date.
* The network (`fetch` against the rate provider) is modelled as an oracle
  `fetchRate : ℤ → String → Option ℚ` in `Env` giving the provider's decimal
  rate for a (date, from-currency) pair, `none` on any network/parse failure.
  The cache upsert performed by `fetchAndCacheRate` on success is write-only
  within each modelled operation (no modelled operation reads the cache after
  a successful fetch in the same call), so the embedding keeps `Env` fixed.
-/

/-! ## Data model and operations (embedded from src/app.js) -/

/-- `Math.round` of JavaScript on an exact rational: nearest integer with
exact halves rounded toward `+∞`. -/
def jsRound (q : ℚ) : ℤ := ⌊q + 1/2⌋

/-- `const PPM = 1_000_000` of `app.js`. -/
def PPM : ℤ := 1000000

/-- `toCents = (n) => Math.round(Number(n) * 100)` of `app.js`. -/
def toCents (n : ℚ) : ℤ := jsRound (n * 100)

/-- `rateToPpm = (rateStr) => Math.round(Number(rateStr) * PPM)` of `app.js`. -/
def rateToPpm (rate : ℚ) : ℤ := jsRound (rate * 1000000)

/-- `applyFeePpm = (ppm, feePercent) => Math.round(ppm * (1 + feePercent / 100))`
of `app.js`. -/
def applyFeePpm (ppm : ℤ) (feePercent : ℚ) : ℤ := jsRound ((ppm : ℚ) * (1 + feePercent / 100))

/-- Modelled from the spec: round half away from zero, the rounding mode the
spec ascribes to decimal-input conversion ("round-half-away-from-zero when
converting from decimal input").  Defined from the spec's words only, to be
compared against the source's `toCents`/`rateToPpm`. -/
def roundHalfAwayFromZero (q : ℚ) : ℤ := if 0 ≤ q then ⌊q + 1/2⌋ else -⌊-q + 1/2⌋

/-- The per-trip settings record, as produced by `normalizeSettings` of
`app.js`; `ccFeePercent` is kept optional to model the `?? 2.5` defaulting at
its use sites. -/
structure Settings where
  homeCurrency : String
  tripCurrencies : List String
  ccFeePercent : Option ℚ
deriving DecidableEq, Repr

/-- One `fxRates` store row: keyed by calendar date, carrying a
currency → ppm map (modelled as an association list). -/
structure FxRow where
  date : ℤ
  rates : List (String × ℤ)
deriving DecidableEq, Repr

/-- One `cashBatches` store row. -/
structure CashBatch where
  id : String
  tripId : String
  date : ℤ
  currency : String
  ratePpm : ℤ
  purchasedAmountCents : ℤ
deriving DecidableEq, Repr

/-- One `categories` store row. -/
structure Category where
  id : String
  name : String
  tripId : String
deriving DecidableEq, Repr

/-- The `fxSource` provenance values of an expense. -/
inductive FxSource
  | identity
  | frankfurter
  | cashBatch
  | pending
deriving DecidableEq, Repr

/-- One `expenses` store row (photo handling is out of scope). -/
structure Expense where
  id : String
  tripId : String
  date : ℤ
  currency : String
  method : String
  categoryId : String
  description : String
  amountLocalCents : ℤ
  baseAmountCents : Option ℤ
  fxRatePpm : Option ℤ
  fxSource : FxSource
  cashBatchId : Option String
deriving DecidableEq, Repr

/-- The environment a ledger operation runs against: the active trip's
settings, the `fxRates` cache, the active trip's cash batches,
`navigator.onLine`, the provider-fetch oracle, and `today()`. -/
structure Env where
  settings : Settings
  fxRates : List FxRow
  cashBatches : List CashBatch
  online : Bool
  fetchRate : ℤ → String → Option ℚ
  today : ℤ

/-- JavaScript object property read `rates[currency]`. -/
def ratesGet (rates : List (String × ℤ)) (cur : String) : Option ℤ :=
  (rates.find? (fun p => p.1 = cur)).map (·.2)

/-- Truthiness-guarded property read, modelling `row.rates[currency]` used as
a condition: a stored rate of `0` ppm is falsy and treated as absent. -/
def ratesGetTruthy (rates : List (String × ℤ)) (cur : String) : Option ℤ :=
  match ratesGet rates cur with
  | some p => if p = 0 then none else some p
  | none => none

/-- `getFxRatePpmExact(dateStr, currency)` of `app.js`: exact-date row lookup
(`get('fxRates', dateStr)`, dates are the primary key) followed by a truthy
`row.rates[currency]` read, `null` otherwise. -/
def getFxRatePpmExact (rows : List FxRow) (date : ℤ) (cur : String) : Option ℤ :=
  match rows.find? (fun r => r.date = date) with
  | some row => ratesGetTruthy row.rates cur
  | none => none

/-- `arr.sort((a, b) => new Date(b.date) - new Date(a.date))`: sort descending
by date key.  The stores involved key rows uniquely, so any sorting algorithm
realises the JavaScript comparator result. -/
def sortDesc {α : Type} (key : α → ℤ) (l : List α) : List α :=
  l.insertionSort (fun a b => key b ≤ key a)

/-- `getFxRowAtOrBefore(dateStr)` of `app.js`: over all cached rows sorted by
date descending, the first row dated `≤ dateStr`, else the oldest row; with a
null/empty `dateStr` the newest row; `null` when the cache is empty. -/
def getFxRowAtOrBefore (rows : List FxRow) (dateStr : Option ℤ) : Option FxRow :=
  if rows.isEmpty then none
  else
    let sorted := sortDesc (·.date) rows
    match dateStr with
    | none => sorted.head?
    | some target =>
      match sorted.find? (fun r => decide (r.date ≤ target)) with
      | some row => some row
      | none => sorted.getLast?

/-- `fetchAndCacheRate(dateStr, currency)` of `app.js`: identity short-circuit
when the (uppercased) currency is the home currency, otherwise the provider
fetch; a missing or zero (falsy) decimal rate is a failure.  The cache upsert
on success is write-only within the modelled operations (see header). -/
def fetchAndCacheRate (env : Env) (date : ℤ) (currency : String) : Option (ℤ × FxSource) :=
  let toCur := env.settings.homeCurrency.toUpper
  let fromCur := currency.toUpper
  if fromCur = toCur then some (PPM, FxSource.identity)
  else
    match env.fetchRate date fromCur with
    | none => none
    | some rate => if rate = 0 then none else some (rateToPpm rate, FxSource.frankfurter)

/-- `getOrFetchRate(dateStr, currency)` of `app.js` (the spec's
`resolve_rate`): identity short-circuit, then exact cache hit, then live
fetch, then backward fallback to the closest historical row. -/
def getOrFetchRate (env : Env) (date : ℤ) (currency0 : String) : Option (ℤ × FxSource) :=
  let currency := currency0.toUpper
  let home := env.settings.homeCurrency.toUpper
  if currency = home then some (PPM, FxSource.identity)
  else
    match getFxRatePpmExact env.fxRates date currency with
    | some ppm => some (ppm, FxSource.frankfurter)
    | none =>
      match fetchAndCacheRate env date currency with
      | some r => some r
      | none =>
        match getFxRowAtOrBefore env.fxRates (some date) with
        | some row =>
          match ratesGetTruthy row.rates currency with
          | some p => some (p, FxSource.frankfurter)
          | none => none
        | none => none

/-- `pickCashBatchFor(dateStr, currency)` of `app.js`: among the active
trip's batches (carried in `Env`), those matching the uppercased currency and
dated `≤ dateStr`, sorted by date descending; the first one, else `null`. -/
def pickCashBatchFor (env : Env) (date : ℤ) (currency : String) : Option CashBatch :=
  let candidates := env.cashBatches.filter
    (fun b => b.currency == currency.toUpper && decide (b.date ≤ date))
  (sortDesc (·.date) candidates).head?

/-- The effective-rate expression repeated verbatim at the three derivation
sites of `app.js` (`addExpense`, `updateExpense`, `syncPendingExpenses`):
`(fxSource === 'identity') ? fxRatePpm : applyFeePpm(fxRatePpm, settings.ccFeePercent ?? 2.5)`. -/
def effPpm (settings : Settings) (ppm : ℤ) (source : FxSource) : ℤ :=
  if source = FxSource.identity then ppm
  else applyFeePpm ppm (settings.ccFeePercent.getD (5/2))

/-- The user-supplied fields of an add/update expense form submission. -/
structure NewExpenseInput where
  date : ℤ
  currency : String
  method : String
  categoryId : String
  description : String
  amountLocal : ℚ

/-- `addExpense(...)` of `app.js`, restricted to its derivation and persisted
record (photo handling and id generation aside; the fresh `crypto.randomUUID()`
id and the active trip id are passed in as `newId`/`tripId`).  Thrown errors
become `Except.error` with the source's message prefix. -/
def addExpense (env : Env) (newId tripId : String) (inp : NewExpenseInput) :
    Except String Expense :=
  let settings := env.settings
  let amountLocalCents := toCents inp.amountLocal
  let currency := inp.currency.toUpper
  let base : Expense :=
    { id := newId, tripId := tripId, date := inp.date, currency := currency,
      method := inp.method, categoryId := inp.categoryId,
      description := inp.description, amountLocalCents := amountLocalCents,
      baseAmountCents := none, fxRatePpm := none,
      fxSource := FxSource.frankfurter, cashBatchId := none }
  if inp.method = "cash" then
    if currency = settings.homeCurrency.toUpper then
      Except.ok { base with fxRatePpm := some PPM, fxSource := FxSource.identity,
                            baseAmountCents := some amountLocalCents, cashBatchId := none }
    else
      match pickCashBatchFor env inp.date currency with
      | none => Except.error "No cash batch found"
      | some batch =>
        Except.ok { base with cashBatchId := some batch.id,
                              fxRatePpm := some batch.ratePpm,
                              fxSource := FxSource.cashBatch,
                              baseAmountCents :=
                                some (jsRound ((amountLocalCents : ℚ) * (batch.ratePpm : ℚ) / (PPM : ℚ))) }
  else
    -- the `result` resolution chain of the non-cash branch
    let step : Except String (Option (ℤ × FxSource)) :=
      match getOrFetchRate env inp.date currency with
      | some r => Except.ok (some r)
      | none =>
        if env.online = false then Except.ok none
        else
          match fetchAndCacheRate env inp.date currency with
          | some r => Except.ok (some r)
          | none =>
            match getFxRowAtOrBefore env.fxRates (some inp.date) with
            | some row =>
              match ratesGetTruthy row.rates currency with
              | some p => Except.ok (some (p, FxSource.frankfurter))
              | none => Except.error "Unable to fetch FX rate"
            | none => Except.error "Unable to fetch FX rate"
    match step with
    | Except.error e => Except.error e
    | Except.ok none =>
      Except.ok { base with fxRatePpm := none, fxSource := FxSource.pending,
                            baseAmountCents := none, cashBatchId := none }
    | Except.ok (some (ppm, source)) =>
      let eff := effPpm settings ppm source
      Except.ok { base with fxRatePpm := some ppm, fxSource := source,
                            baseAmountCents :=
                              some (jsRound ((amountLocalCents : ℚ) * (eff : ℚ) / (PPM : ℚ))),
                            cashBatchId := none }

/-- `updateExpense(id, ...)` of `app.js`: fully replaces the editable fields
of the stored expense `exp` and re-runs the derivation (the same block as
`addExpense`, duplicated in the source). -/
def updateExpense (env : Env) (exp : Expense) (inp : NewExpenseInput) :
    Except String Expense :=
  let settings := env.settings
  let exp1 : Expense :=
    { exp with date := inp.date, currency := inp.currency.toUpper,
               method := inp.method, categoryId := inp.categoryId,
               description := inp.description,
               amountLocalCents := toCents inp.amountLocal }
  if inp.method = "cash" then
    if exp1.currency = settings.homeCurrency.toUpper then
      Except.ok { exp1 with fxRatePpm := some PPM, fxSource := FxSource.identity,
                            baseAmountCents := some exp1.amountLocalCents, cashBatchId := none }
    else
      match pickCashBatchFor env inp.date exp1.currency with
      | none => Except.error "No cash batch found"
      | some batch =>
        Except.ok { exp1 with cashBatchId := some batch.id,
                              fxRatePpm := some batch.ratePpm,
                              fxSource := FxSource.cashBatch,
                              baseAmountCents :=
                                some (jsRound ((exp1.amountLocalCents : ℚ) * (batch.ratePpm : ℚ) / (PPM : ℚ))) }
  else
    let step : Except String (Option (ℤ × FxSource)) :=
      match getOrFetchRate env inp.date exp1.currency with
      | some r => Except.ok (some r)
      | none =>
        if env.online = false then Except.ok none
        else
          match fetchAndCacheRate env inp.date exp1.currency with
          | some r => Except.ok (some r)
          | none =>
            match getFxRowAtOrBefore env.fxRates (some inp.date) with
            | some row =>
              match ratesGetTruthy row.rates exp1.currency with
              | some p => Except.ok (some (p, FxSource.frankfurter))
              | none => Except.error "Unable to fetch FX rate"
            | none => Except.error "Unable to fetch FX rate"
    match step with
    | Except.error e => Except.error e
    | Except.ok none =>
      Except.ok { exp1 with fxRatePpm := none, fxSource := FxSource.pending,
                            baseAmountCents := none, cashBatchId := none }
    | Except.ok (some (ppm, source)) =>
      let eff := effPpm settings ppm source
      Except.ok { exp1 with fxRatePpm := some ppm, fxSource := source,
                            baseAmountCents :=
                              some (jsRound ((exp1.amountLocalCents : ℚ) * (eff : ℚ) / (PPM : ℚ))),
                            cashBatchId := none }

/-- `sumBaseCents(expenses)` of `app.js`:
`expenses.reduce((acc, e) => acc + (e.baseAmountCents || 0), 0)`. -/
def sumBaseCents (expenses : List Expense) : ℤ :=
  expenses.foldl (fun acc e => acc + e.baseAmountCents.getD 0) 0

/-- `convertBaseToTargetCents(baseCents, targetCurrency, endDate)` of
`app.js`. -/
def convertBaseToTargetCents (env : Env) (baseCents : ℤ) (targetCurrency0 : String)
    (endDate : Option ℤ) : Except String ℤ :=
  let home := env.settings.homeCurrency.toUpper
  let targetCurrency := targetCurrency0.toUpper
  if targetCurrency = home then Except.ok baseCents
  else
    match getOrFetchRate env (endDate.getD env.today) targetCurrency with
    | none => Except.error "Unable to fetch FX rate"
    | some result =>
      let homeToTargetPpm := jsRound ((PPM : ℚ) / ((result.1 : ℚ) / (PPM : ℚ)))
      Except.ok (jsRound ((baseCents : ℚ) * (homeToTargetPpm : ℚ) / (PPM : ℚ)))

/-- The `pending` filter of `syncPendingExpenses` of `app.js`:
`e.method !== 'cash' && (!e.fxRatePpm || e.fxSource === 'pending' || e.baseAmountCents == null)`. -/
def pendingFilter (e : Expense) : Bool :=
  e.method ≠ "cash" &&
    ((match e.fxRatePpm with | none => true | some p => p = 0)
      || e.fxSource = FxSource.pending || e.baseAmountCents = none)

/-- The per-expense body of the `syncPendingExpenses` loop of `app.js`: try
`getOrFetchRate`; on failure leave the expense untouched, on success persist
the re-derived rate, source and base amount. -/
def syncExpense (env : Env) (e : Expense) : Expense :=
  match getOrFetchRate env e.date e.currency with
  | none => e
  | some (ppm, source) =>
    let eff := effPpm env.settings ppm source
    { e with fxRatePpm := some ppm, fxSource := source,
             baseAmountCents := some (jsRound ((e.amountLocalCents : ℚ) * (eff : ℚ) / (PPM : ℚ))) }

/-- One pass of `syncPendingExpenses()` of `app.js` over the active trip's
expense list: every expense passing the pending filter is re-derived,
the rest are untouched. -/
def syncPendingExpenses (env : Env) (es : List Expense) : List Expense :=
  es.map (fun e => if pendingFilter e then syncExpense env e else e)

/-- JavaScript `String.prototype.trim` (`newName.trim()`): strip leading and
trailing whitespace, modelled executably over the character list. -/
def jsTrim (s : String) : String :=
  ⟨((s.data.dropWhile Char.isWhitespace).reverse.dropWhile Char.isWhitespace).reverse⟩

/-- IndexedDB `put('categories', cat)`: replace the record with the same key. -/
def putCategory (cats : List Category) (c : Category) : List Category :=
  cats.map (fun x => if x.id = c.id then c else x)

/-- `renameCategory(id, newName)` of `app.js` over the active trip's
categories: trims, rejects empty names, rejects a case-insensitive name clash
with a different category, rejects a missing id, else writes the rename. -/
def renameCategory (cats : List Category) (id : String) (newName0 : String) :
    Except String (List Category) :=
  let newName := jsTrim newName0
  if newName = "" then Except.error "Name required"
  else if cats.any (fun c => c.name.toLower == newName.toLower && c.id != id) then
    Except.error "A category with that name already exists."
  else
    match cats.find? (fun c => c.id == id) with
    | none => Except.error "Category not found"
    | some cat => Except.ok (putCategory cats { cat with name := newName })

/-- The store contents after running `renameCategory`: `app.js` throws before
any `put`, so an error leaves the categories store unchanged. -/
def renameCategoryRun (cats : List Category) (id : String) (newName : String) :
    List Category :=
  match renameCategory cats id newName with
  | Except.ok cats2 => cats2
  | Except.error _ => cats

/-! ## Scenario data shared by witnesses -/

/-- The spec's basic-conversion scenario settings: home CAD, trip currency
EUR, card fee 2.5 percent. -/
def scenarioSettings : Settings :=
  { homeCurrency := "CAD", tripCurrencies := ["EUR"], ccFeePercent := some (5/2) }

/-- The spec's basic-conversion scenario environment: a cached EUR→CAD rate
of 1,450,000 ppm for 2026-02-11 (dates cast to `YYYYMMDD` integers), no cash
batches, online, live fetch failing. -/
def scenarioEnv : Env :=
  { settings := scenarioSettings,
    fxRates := [{ date := 20260211, rates := [("EUR", 1450000)] }],
    cashBatches := [],
    online := true,
    fetchRate := fun _ _ => none,
    today := 20260211 }

/-- First cash batch of the spec's cash-batch-selection scenario:
EUR at rate 1.40 (1,400,000 ppm) on 2026-02-01. -/
def cashBatch1 : CashBatch :=
  { id := "b1", tripId := "t1", date := 20260201, currency := "EUR",
    ratePpm := 1400000, purchasedAmountCents := 50000 }

/-- Second cash batch of the scenario: EUR at rate 1.50 (1,500,000 ppm) on
2026-02-10. -/
def cashBatch2 : CashBatch :=
  { id := "b2", tripId := "t1", date := 20260210, currency := "EUR",
    ratePpm := 1500000, purchasedAmountCents := 50000 }

/-- Environment for the cash scenarios: the two EUR batches, no cached
rates, fetch failing. -/
def cashEnv : Env :=
  { settings := scenarioSettings,
    fxRates := [],
    cashBatches := [cashBatch1, cashBatch2],
    online := true, fetchRate := fun _ _ => none, today := 20260211 }

/-- A placeholder stored expense used as the update target of witnesses. -/
def someStoredExpense : Expense :=
  { id := "e1", tripId := "t1", date := 20260211, currency := "CAD",
    method := "cash", categoryId := "c1", description := "",
    amountLocalCents := 1234, baseAmountCents := some 1234,
    fxRatePpm := some PPM, fxSource := FxSource.identity, cashBatchId := none }

/-- The spec's basic-conversion scenario input: a credit expense of 10.00 EUR
on 2026-02-11. -/
def scenarioCreditInput : NewExpenseInput :=
  { date := 20260211, currency := "EUR", method := "credit", categoryId := "c1",
    description := "", amountLocal := 10 }

/-- Environment for the spec's redisplay-inversion scenario: home CAD and a
cached USD→CAD rate of 1,350,000 ppm. -/
def redisplayEnv : Env :=
  { settings := scenarioSettings,
    fxRates := [{ date := 20260211, rates := [("USD", 1350000)] }],
    cashBatches := [], online := true, fetchRate := fun _ _ => none, today := 20260211 }

/-- The two-category store of the C9 witness. -/
def witnessCats : List Category :=
  [{ id := "c1", name := "Food", tripId := "t1" },
   { id := "c2", name := "Drinks", tripId := "t1" }]

/-- The pending expense of the C6 witness: 10.00 EUR on 2026-02-11, created
offline (no rate, no base amount). -/
def pendingExpense : Expense :=
  { id := "e9", tripId := "t1", date := 20260211, currency := "EUR",
    method := "credit", categoryId := "c1", description := "",
    amountLocalCents := 1000, baseAmountCents := none, fxRatePpm := none,
    fxSource := FxSource.pending, cashBatchId := none }

/-- Cached EUR rows for the C2 witness (dates 2026-02-01 < 02-05 < 02-10). -/
def fallbackRow1 : FxRow := { date := 20260201, rates := [("EUR", 1400000)] }

/-- Second cached row of the C2 witness. -/
def fallbackRow2 : FxRow := { date := 20260205, rates := [("EUR", 1420000)] }

/-- Third (newest) cached row of the C2 witness. -/
def fallbackRow3 : FxRow := { date := 20260210, rates := [("EUR", 1450000)] }

/-- Offline environment for the C2 witness: three cached EUR rows, live
fetch failing. -/
def fallbackEnv : Env :=
  { settings := scenarioSettings,
    fxRates := [fallbackRow1, fallbackRow2, fallbackRow3],
    cashBatches := [], online := false, fetchRate := fun _ _ => none,
    today := 20260215 }

/-- The derived provenance fields of an expense compared by the
idempotent-derivation theorem. -/
def fxFields (e : Expense) : Option ℤ × Option ℤ × FxSource :=
  (e.baseAmountCents, e.fxRatePpm, e.fxSource)

/-- The expense the scenario credit creation persists (10.00 EUR at cached
ppm 1,450,000 with the 2.5 percent fee). -/
def creditExpenseResult : Expense :=
  { id := "e3", tripId := "t1", date := 20260211, currency := "EUR", method := "credit",
    categoryId := "c1", description := "", amountLocalCents := 1000,
    baseAmountCents := some 1486, fxRatePpm := some 1450000,
    fxSource := FxSource.frankfurter, cashBatchId := none }

/-! ## Helper lemmas -/

theorem jsRound_intCast (c : ℤ) : jsRound ((c : ℚ)) = c := by
  rw [jsRound, Int.floor_int_add]
  norm_num

theorem jsRound_mul_PPM_div_PPM (c : ℤ) : jsRound ((c : ℚ) * ((PPM : ℤ) : ℚ) / ((PPM : ℤ) : ℚ)) = c := by
  rw [mul_div_assoc, div_self (by norm_num [PPM]), mul_one, jsRound_intCast]

theorem sortDesc_mem {α : Type} (key : α → ℤ) (l : List α) (x : α) :
    x ∈ sortDesc key l ↔ x ∈ l :=
  List.mem_insertionSort _

theorem sortDesc_eq_nil_iff {α : Type} (key : α → ℤ) (l : List α) :
    sortDesc key l = [] ↔ l = [] := by
  constructor
  · intro h
    have := List.length_insertionSort (fun a b => key b ≤ key a) l
    rw [sortDesc] at h
    rw [h] at this
    exact List.length_eq_zero.mp this.symm
  · intro h; subst h; rfl

theorem sortDesc_head_max {α : Type} (key : α → ℤ) (l : List α) (b : α)
    (hb : (sortDesc key l).head? = some b) :
    b ∈ l ∧ ∀ x ∈ l, key x ≤ key b := by
  haveI : IsTotal α (fun a b => key b ≤ key a) := ⟨fun a b => le_total (key b) (key a)⟩
  haveI : IsTrans α (fun a b => key b ≤ key a) := ⟨fun _ _ _ h1 h2 => le_trans h2 h1⟩
  have hsorted : List.Sorted (fun a b => key b ≤ key a) (sortDesc key l) :=
    List.sorted_insertionSort _ l
  cases hl : sortDesc key l with
  | nil => rw [hl] at hb; simp at hb
  | cons h t =>
    rw [hl] at hb
    simp only [List.head?_cons, Option.some.injEq] at hb
    subst hb
    rw [hl] at hsorted
    rw [List.sorted_cons] at hsorted
    constructor
    · rw [← sortDesc_mem key l, hl]; exact List.mem_cons_self _ _
    · intro x hx
      rw [← sortDesc_mem key l, hl] at hx
      rcases List.mem_cons.mp hx with rfl | hx
      · exact le_refl _
      · exact hsorted.1 x hx

theorem foldl_add_getD_base (es : List Expense) (a : ℤ) :
    es.foldl (fun acc e => acc + e.baseAmountCents.getD 0) a
      = a + (es.map (fun e => e.baseAmountCents.getD 0)).sum := by
  induction es generalizing a with
  | nil => simp
  | cons e es ih => simp only [List.foldl_cons, List.map_cons, List.sum_cons, ih]; ring

theorem getOrFetchRate_identity (env : Env) (date : ℤ) (cur0 : String)
    (h : cur0.toUpper = env.settings.homeCurrency.toUpper) :
    getOrFetchRate env date cur0 = some (PPM, FxSource.identity) := by
  unfold getOrFetchRate
  simp [h]

/-! ## C10 — decimal-input rounding mode -/

/-- C10 counterexample: the claim says `toCents x` equals
round-half-away-from-zero of `x * 100` for every decimal input, in particular
for negative inputs whose scaled value ends in `.5`; at `x = -0.125`
(exactly representable, so no float round-off is involved) the code's
`Math.round` gives `-12` while round-half-away-from-zero gives `-13`. -/
theorem toCents_neg_eighth_counterexample :
    toCents (-(1/8 : ℚ)) = -12 ∧ roundHalfAwayFromZero ((-(1/8 : ℚ)) * 100) = -13 ∧
    toCents (-(1/8 : ℚ)) ≠ roundHalfAwayFromZero ((-(1/8 : ℚ)) * 100) := by
  refine ⟨?_, ?_, ?_⟩ <;> norm_num [toCents, jsRound, roundHalfAwayFromZero]

/-- C10 (amended): for nonnegative decimal inputs, `toCents x` equals
round-half-away-from-zero of `x * 100` and `rateToPpm x` equals
round-half-away-from-zero of `x * 1_000_000`; for negative scaled halves the
code instead rounds toward `+∞` (JavaScript `Math.round`). -/
theorem toCents_rateToPpm_round_half_up (q : ℚ) (hq : 0 ≤ q) :
    toCents q = roundHalfAwayFromZero (q * 100) ∧
    rateToPpm q = roundHalfAwayFromZero (q * 1000000) := by
  constructor
  · rw [toCents, roundHalfAwayFromZero, if_pos (by positivity)]; rfl
  · rw [rateToPpm, roundHalfAwayFromZero, if_pos (by positivity)]; rfl

/-- C10 witness: the amended statement instantiated at the nonnegative input
`1.5`. -/
theorem toCents_rateToPpm_round_half_up_witness :
    (0 : ℚ) ≤ 3/2 ∧
      (toCents (3/2 : ℚ) = roundHalfAwayFromZero ((3/2 : ℚ) * 100) ∧
        rateToPpm (3/2 : ℚ) = roundHalfAwayFromZero ((3/2 : ℚ) * 1000000)) :=
  ⟨by norm_num, toCents_rateToPpm_round_half_up (3/2) (by norm_num)⟩

/-! ## C4 — identity short-circuit -/

/-- C4: for every expense (cash or credit) whose currency equals the trip's
home currency (stored normalized uppercase), creation and update persist
`fxRatePpm = 1_000_000`, `fxSource = identity`, and
`baseAmountCents = amountLocalCents`, for every value of `ccFeePercent`
(the environment, hence the fee, is arbitrary). -/
theorem addExpense_updateExpense_identity (env : Env) (newId tripId : String)
    (exp0 : Expense) (inp : NewExpenseInput)
    (hnorm : env.settings.homeCurrency.toUpper = env.settings.homeCurrency)
    (hcur : inp.currency = env.settings.homeCurrency) :
    (∃ e, addExpense env newId tripId inp = Except.ok e ∧ e.fxRatePpm = some PPM ∧
       e.fxSource = FxSource.identity ∧ e.baseAmountCents = some (toCents inp.amountLocal)) ∧
    (∃ e, updateExpense env exp0 inp = Except.ok e ∧ e.fxRatePpm = some PPM ∧
       e.fxSource = FxSource.identity ∧ e.baseAmountCents = some (toCents inp.amountLocal)) := by
  have h1 : inp.currency.toUpper = env.settings.homeCurrency.toUpper := by rw [hcur]
  have h2 : inp.currency.toUpper.toUpper = env.settings.homeCurrency.toUpper := by
    rw [h1, hnorm]; exact hnorm
  have hrate := getOrFetchRate_identity env inp.date inp.currency.toUpper h2
  constructor
  · by_cases hm : inp.method = "cash"
    · unfold addExpense
      simp only [hm, if_true, if_pos h1, reduceIte]
      exact ⟨_, rfl, rfl, rfl, rfl⟩
    · unfold addExpense
      simp only [hm, if_false, reduceIte, hrate, effPpm, if_pos rfl]
      refine ⟨_, rfl, rfl, rfl, ?_⟩
      simp only [jsRound_mul_PPM_div_PPM]
  · by_cases hm : inp.method = "cash"
    · unfold updateExpense
      simp only [hm, if_true, if_pos h1, reduceIte]
      exact ⟨_, rfl, rfl, rfl, rfl⟩
    · unfold updateExpense
      simp only [hm, if_false, reduceIte, hrate, effPpm, if_pos rfl]
      refine ⟨_, rfl, rfl, rfl, ?_⟩
      simp only [jsRound_mul_PPM_div_PPM]

/-- C4 witness: a concrete CAD cash expense of 12.34 CAD against the scenario
environment, and the same input driven through update. -/
theorem addExpense_updateExpense_identity_witness :
    (∃ e, addExpense scenarioEnv "e1" "t1"
        { date := 20260211, currency := "CAD", method := "cash", categoryId := "c1",
          description := "", amountLocal := 1234/100 } = Except.ok e ∧
      e.fxRatePpm = some PPM ∧ e.fxSource = FxSource.identity ∧
      e.baseAmountCents = some (toCents (1234/100 : ℚ))) ∧
    (∃ e, updateExpense scenarioEnv
        { id := "e1", tripId := "t1", date := 20260211, currency := "CAD",
          method := "cash", categoryId := "c1", description := "",
          amountLocalCents := 1234, baseAmountCents := some 1234,
          fxRatePpm := some PPM, fxSource := FxSource.identity, cashBatchId := none }
        { date := 20260211, currency := "CAD", method := "cash", categoryId := "c1",
          description := "", amountLocal := 1234/100 } = Except.ok e ∧
      e.fxRatePpm = some PPM ∧ e.fxSource = FxSource.identity ∧
      e.baseAmountCents = some (toCents (1234/100 : ℚ))) :=
  addExpense_updateExpense_identity scenarioEnv "e1" "t1" _ _
    (by simp [scenarioEnv, scenarioSettings, String.toUpper, String.map_eq])
    (by simp [scenarioEnv, scenarioSettings])

/-! ## C5 — cash conversions are never fee'd -/

/-- C5: for every cash-method expense in a non-home currency that resolves to
a cash batch, the persisted `baseAmountCents` is exactly
`round(amountLocalCents * batch.ratePpm / 1_000_000)` — an expression free of
`ccFeePercent`, over an arbitrary environment (hence an arbitrary fee) — with
`fxSource = cashBatch`; the same holds for update. -/
theorem addExpense_updateExpense_cash_no_fee (env : Env) (newId tripId : String)
    (exp0 : Expense) (inp : NewExpenseInput) (batch : CashBatch)
    (hm : inp.method = "cash")
    (hne : inp.currency.toUpper ≠ env.settings.homeCurrency.toUpper)
    (hbatch : pickCashBatchFor env inp.date inp.currency.toUpper = some batch) :
    (∃ e, addExpense env newId tripId inp = Except.ok e ∧
       e.baseAmountCents = some (jsRound ((toCents inp.amountLocal : ℚ) * (batch.ratePpm : ℚ) / ((PPM : ℤ) : ℚ))) ∧
       e.fxSource = FxSource.cashBatch ∧ e.fxRatePpm = some batch.ratePpm ∧
       e.cashBatchId = some batch.id) ∧
    (∃ e, updateExpense env exp0 inp = Except.ok e ∧
       e.baseAmountCents = some (jsRound ((toCents inp.amountLocal : ℚ) * (batch.ratePpm : ℚ) / ((PPM : ℤ) : ℚ))) ∧
       e.fxSource = FxSource.cashBatch ∧ e.fxRatePpm = some batch.ratePpm ∧
       e.cashBatchId = some batch.id) := by
  constructor
  · unfold addExpense
    simp only [hm, reduceIte, if_neg hne, hbatch]
    exact ⟨_, rfl, rfl, rfl, rfl, rfl⟩
  · unfold updateExpense
    simp only [hm, reduceIte, if_neg hne, hbatch]
    exact ⟨_, rfl, rfl, rfl, rfl, rfl⟩

/-- C5 witness: a cash expense of 50.00 EUR on 2026-02-08 against the two
scenario batches settles on batch `b1` with no fee applied. -/
theorem addExpense_updateExpense_cash_no_fee_witness :
    (∃ e, addExpense cashEnv "e2" "t1"
        { date := 20260208, currency := "EUR", method := "cash", categoryId := "c1",
          description := "", amountLocal := 50 } = Except.ok e ∧
       e.baseAmountCents = some (jsRound ((toCents (50 : ℚ) : ℚ) * (cashBatch1.ratePpm : ℚ) / ((PPM : ℤ) : ℚ))) ∧
       e.fxSource = FxSource.cashBatch ∧ e.fxRatePpm = some cashBatch1.ratePpm ∧
       e.cashBatchId = some cashBatch1.id) ∧
    (∃ e, updateExpense cashEnv someStoredExpense
        { date := 20260208, currency := "EUR", method := "cash", categoryId := "c1",
          description := "", amountLocal := 50 } = Except.ok e ∧
       e.baseAmountCents = some (jsRound ((toCents (50 : ℚ) : ℚ) * (cashBatch1.ratePpm : ℚ) / ((PPM : ℤ) : ℚ))) ∧
       e.fxSource = FxSource.cashBatch ∧ e.fxRatePpm = some cashBatch1.ratePpm ∧
       e.cashBatchId = some cashBatch1.id) :=
  addExpense_updateExpense_cash_no_fee cashEnv "e2" "t1" someStoredExpense _ cashBatch1
    rfl
    (by simp [cashEnv, scenarioSettings, String.toUpper, String.map_eq])
    (by simp [pickCashBatchFor, cashEnv, cashBatch1, cashBatch2, sortDesc,
          String.toUpper, String.map_eq, List.insertionSort, List.orderedInsert,
          List.filter])

/-! ## C1 — credit conversion with exact cached rate, card fee applied -/

/-- C1: for a non-cash expense in a non-home currency with an exact cached
rate `ppm` for the expense date, the persisted fields are
`fxRatePpm = ppm`, `fxSource = frankfurter`, and
`baseAmountCents = round(amountLocalCents * applyFeePpm(ppm, ccFeePercent) / 1_000_000)`. -/
theorem addExpense_credit_cached_rate (env : Env) (newId tripId : String)
    (inp : NewExpenseInput) (ppm : ℤ)
    (hm : inp.method ≠ "cash")
    (hne : inp.currency.toUpper.toUpper ≠ env.settings.homeCurrency.toUpper)
    (hexact : getFxRatePpmExact env.fxRates inp.date inp.currency.toUpper.toUpper = some ppm) :
    ∃ e, addExpense env newId tripId inp = Except.ok e ∧
      e.fxRatePpm = some ppm ∧ e.fxSource = FxSource.frankfurter ∧
      e.baseAmountCents = some (jsRound ((toCents inp.amountLocal : ℚ) *
        ((applyFeePpm ppm (env.settings.ccFeePercent.getD (5/2)) : ℤ) : ℚ) / ((PPM : ℤ) : ℚ))) := by
  have hrate : getOrFetchRate env inp.date inp.currency.toUpper = some (ppm, FxSource.frankfurter) := by
    unfold getOrFetchRate
    simp only [if_neg hne, hexact]
  unfold addExpense
  simp only [if_neg hm, hrate, effPpm, reduceIte]
  exact ⟨_, rfl, rfl, rfl, rfl⟩

/-- C1 witness, the spec's worked example: home CAD, fee 2.5, cached EUR rate
1,450,000 ppm; the effective rate is `round(1450000 * 1.025) = 1486250` and
the persisted base amount `round(1000 * 1486250 / 1000000) = 1486`. -/
theorem addExpense_credit_cached_rate_witness :
    applyFeePpm 1450000 (5/2) = 1486250 ∧
    jsRound ((1000 : ℚ) * 1486250 / 1000000) = 1486 ∧
    (∃ e, addExpense scenarioEnv "e3" "t1" scenarioCreditInput = Except.ok e ∧
      e.fxRatePpm = some 1450000 ∧ e.fxSource = FxSource.frankfurter ∧
      e.baseAmountCents = some 1486) := by
  refine ⟨by norm_num [applyFeePpm, jsRound], by norm_num [jsRound], ?_⟩
  obtain ⟨e, he, hppm, hsrc, hbase⟩ :=
    addExpense_credit_cached_rate scenarioEnv "e3" "t1" scenarioCreditInput 1450000
      (by decide)
      (by simp [scenarioCreditInput, scenarioEnv, scenarioSettings, String.toUpper, String.map_eq])
      (by simp [scenarioCreditInput, getFxRatePpmExact, scenarioEnv, ratesGetTruthy, ratesGet,
            String.toUpper, String.map_eq])
  refine ⟨e, he, hppm, hsrc, ?_⟩
  rw [hbase]
  norm_num [scenarioEnv, scenarioSettings, scenarioCreditInput, toCents, applyFeePpm, jsRound, PPM]

/-! ## C7 — redisplay inversion -/

/-- C7: `convertBaseToTargetCents` returns `baseCents` unchanged when the
target is the home currency, and otherwise returns
`round(baseCents * round(10^12 / ppm) / 1_000_000)` for the resolved
target→home `ppm`; the scenario arithmetic `round(10^12/1350000) = 740741`
and `round(1000 * 740741 / 10^6) = 741` also holds. -/
theorem convertBaseToTargetCents_spec (env : Env) (baseCents : ℤ) (target : String)
    (endDate : Option ℤ) :
    (target.toUpper = env.settings.homeCurrency.toUpper →
       convertBaseToTargetCents env baseCents target endDate = Except.ok baseCents) ∧
    (∀ ppm src, target.toUpper ≠ env.settings.homeCurrency.toUpper →
       getOrFetchRate env (endDate.getD env.today) target.toUpper = some (ppm, src) →
       convertBaseToTargetCents env baseCents target endDate =
         Except.ok (jsRound ((baseCents : ℚ) * ((jsRound ((1000000000000 : ℚ) / (ppm : ℚ)) : ℤ) : ℚ) / ((PPM : ℤ) : ℚ)))) ∧
    jsRound ((1000000000000 : ℚ) / 1350000) = 740741 ∧
    jsRound ((1000 : ℚ) * 740741 / 1000000) = 741 := by
  refine ⟨?_, ?_, by norm_num [jsRound], by norm_num [jsRound]⟩
  · intro h
    unfold convertBaseToTargetCents
    simp only [if_pos h]
  · intro ppm src hne hres
    unfold convertBaseToTargetCents
    simp only [if_neg hne, hres]
    have hinv : ((PPM : ℤ) : ℚ) / ((ppm : ℚ) / ((PPM : ℤ) : ℚ)) = (1000000000000 : ℚ) / (ppm : ℚ) := by
      rw [div_div_eq_mul_div]
      norm_num [PPM]
    rw [hinv]

/-- C7 witness, the spec's worked example: 1000 base cents redisplayed in USD
at resolved ppm 1,350,000 give 741 cents. -/
theorem convertBaseToTargetCents_spec_witness :
    convertBaseToTargetCents redisplayEnv 1000 "USD" (some 20260211) = Except.ok 741 := by
  obtain ⟨-, h2, -, -⟩ := convertBaseToTargetCents_spec redisplayEnv 1000 "USD" (some 20260211)
  rw [h2 1350000 FxSource.frankfurter
    (by simp [redisplayEnv, scenarioSettings, String.toUpper, String.map_eq])
    (by unfold getOrFetchRate
        simp [redisplayEnv, scenarioSettings, getFxRatePpmExact, ratesGetTruthy, ratesGet,
          String.toUpper, String.map_eq])]
  norm_num [jsRound, PPM]

/-! ## C8 — cash batch selection -/

/-- C8: `pickCashBatchFor` selects, among the active trip's batches matching
the given currency, one dated `≤` the expense date and maximal among those
(ties arbitrary), and returns `none` when no matching batch dated `≤` the
expense date exists. -/
theorem pickCashBatchFor_spec (env : Env) (date : ℤ) (cur : String) :
    (∀ b, pickCashBatchFor env date cur = some b →
       b ∈ env.cashBatches ∧ b.currency = cur.toUpper ∧ b.date ≤ date ∧
       ∀ b2 ∈ env.cashBatches, b2.currency = cur.toUpper → b2.date ≤ date → b2.date ≤ b.date) ∧
    ((∀ b2 ∈ env.cashBatches, ¬(b2.currency = cur.toUpper ∧ b2.date ≤ date)) →
       pickCashBatchFor env date cur = none) := by
  constructor
  · intro b hb
    unfold pickCashBatchFor at hb
    obtain ⟨hmem, hmax⟩ := sortDesc_head_max (·.date) _ b hb
    rw [List.mem_filter] at hmem
    obtain ⟨hmem, hp⟩ := hmem
    simp only [Bool.and_eq_true, beq_iff_eq, decide_eq_true_eq] at hp
    refine ⟨hmem, hp.1, hp.2, ?_⟩
    intro b2 hb2 hc2 hd2
    exact hmax b2 (List.mem_filter.mpr ⟨hb2, by simp [hc2, hd2]⟩)
  · intro hnone
    unfold pickCashBatchFor
    have hfil : env.cashBatches.filter
        (fun b => b.currency == cur.toUpper && decide (b.date ≤ date)) = [] := by
      rw [List.filter_eq_nil_iff]
      intro b hb
      simp only [Bool.and_eq_true, beq_iff_eq, decide_eq_true_eq, not_and]
      intro hc hd
      exact hnone b hb ⟨hc, hd⟩
    rw [hfil]
    rfl

/-- C8 witness, the spec's scenario: with EUR batches dated 2026-02-01 and
2026-02-10, an expense dated 2026-02-08 selects the 2026-02-01 batch, which
is maximal among the matching batches not after the expense date. -/
theorem pickCashBatchFor_spec_witness :
    pickCashBatchFor cashEnv 20260208 "EUR" = some cashBatch1 ∧
    cashBatch1.currency = "EUR".toUpper ∧ cashBatch1.date ≤ 20260208 ∧
    ∀ b2 ∈ cashEnv.cashBatches, b2.currency = "EUR".toUpper → b2.date ≤ 20260208 →
      b2.date ≤ cashBatch1.date := by
  have hpick : pickCashBatchFor cashEnv 20260208 "EUR" = some cashBatch1 := by
    simp [pickCashBatchFor, cashEnv, cashBatch1, cashBatch2, sortDesc,
      String.toUpper, String.map_eq, List.insertionSort, List.orderedInsert, List.filter]
  obtain ⟨h1, -⟩ := pickCashBatchFor_spec cashEnv 20260208 "EUR"
  obtain ⟨-, hc, hd, hmax⟩ := h1 cashBatch1 hpick
  exact ⟨hpick, hc, hd, hmax⟩

/-! ## C9 — category rename conflict is atomic -/

/-- C9: renaming a category to a name already used by a different category of
the same trip, compared case-insensitively, fails with an error and writes
nothing: the categories store — in particular both categories' records — is
unchanged after the failed call. -/
theorem renameCategory_conflict_atomic (cats : List Category) (id newName : String)
    (h : ∃ c ∈ cats, c.id ≠ id ∧ c.name.toLower = (jsTrim newName).toLower) :
    (∃ msg, renameCategory cats id newName = Except.error msg) ∧
    renameCategoryRun cats id newName = cats := by
  obtain ⟨c, hc, hcid, hcname⟩ := h
  by_cases he : jsTrim newName = ""
  · have herr : renameCategory cats id newName = Except.error "Name required" := by
      unfold renameCategory
      rw [if_pos he]
    exact ⟨⟨_, herr⟩, by unfold renameCategoryRun; rw [herr]⟩
  · have hany : cats.any
        (fun x => x.name.toLower == (jsTrim newName).toLower && x.id != id) = true := by
      rw [List.any_eq_true]
      exact ⟨c, hc, by simp [hcname, hcid]⟩
    have herr : renameCategory cats id newName =
        Except.error "A category with that name already exists." := by
      unfold renameCategory
      rw [if_neg he, if_pos hany]
    exact ⟨⟨_, herr⟩, by unfold renameCategoryRun; rw [herr]⟩

/-- C9 witness: renaming category `c1` to `"drinks"` clashes
case-insensitively with category `c2` (`"Drinks"`); the call errors and the
store is unchanged. -/
theorem renameCategory_conflict_atomic_witness :
    (∃ msg, renameCategory witnessCats "c1" "drinks" = Except.error msg) ∧
    renameCategoryRun witnessCats "c1" "drinks" = witnessCats :=
  renameCategory_conflict_atomic witnessCats "c1" "drinks"
    ⟨{ id := "c2", name := "Drinks", tripId := "t1" },
     by simp [witnessCats],
     by decide,
     by simp [jsTrim, String.toLower, String.map_eq]⟩

/-! ## C6 — pending invisibility and reconciliation -/

/-- C6: `sumBaseCents` sums `baseAmountCents` treating the `null` of a
pending expense as zero, so a pending expense contributes 0; after a
successful `syncPendingExpenses` resolution it contributes its newly derived
base amount, computed with `effPpm` — the identical fee rule used by
creation (`addExpense`). -/
theorem sumBaseCents_pending_sync (es : List Expense) (e : Expense) (env : Env)
    (ppm : ℤ) (src : FxSource)
    (hpend : e.fxSource = FxSource.pending) (hbase : e.baseAmountCents = none)
    (hmeth : e.method ≠ "cash")
    (hres : getOrFetchRate env e.date e.currency = some (ppm, src)) :
    sumBaseCents es = (es.map (fun x => x.baseAmountCents.getD 0)).sum ∧
    sumBaseCents (e :: es) = sumBaseCents es ∧
    pendingFilter e = true ∧
    (syncExpense env e).baseAmountCents =
      some (jsRound ((e.amountLocalCents : ℚ) * ((effPpm env.settings ppm src : ℤ) : ℚ) / ((PPM : ℤ) : ℚ))) ∧
    sumBaseCents (syncExpense env e :: es) =
      jsRound ((e.amountLocalCents : ℚ) * ((effPpm env.settings ppm src : ℤ) : ℚ) / ((PPM : ℤ) : ℚ)) + sumBaseCents es ∧
    syncPendingExpenses env (e :: es) = syncExpense env e :: syncPendingExpenses env es := by
  have hsum : ∀ l : List Expense,
      sumBaseCents l = (l.map (fun x => x.baseAmountCents.getD 0)).sum := by
    intro l
    have := foldl_add_getD_base l 0
    simpa [sumBaseCents] using this
  have hfilter : pendingFilter e = true := by
    simp [pendingFilter, hmeth, hpend]
  have hsync : (syncExpense env e).baseAmountCents =
      some (jsRound ((e.amountLocalCents : ℚ) * ((effPpm env.settings ppm src : ℤ) : ℚ) / ((PPM : ℤ) : ℚ))) := by
    simp [syncExpense, hres]
  refine ⟨hsum es, ?_, hfilter, hsync, ?_, ?_⟩
  · rw [hsum (e :: es), hsum es]
    simp [hbase]
  · rw [hsum (syncExpense env e :: es), hsum es]
    simp [hsync]
  · simp [syncPendingExpenses, hfilter]

/-- C6 witness: against the scenario cache the pending expense contributes 0
to the total, and after one reconciliation pass contributes its newly
derived base amount. -/
theorem sumBaseCents_pending_sync_witness :
    sumBaseCents ([] : List Expense) = (([] : List Expense).map (fun x => x.baseAmountCents.getD 0)).sum ∧
    sumBaseCents [pendingExpense] = sumBaseCents [] ∧
    pendingFilter pendingExpense = true ∧
    (syncExpense scenarioEnv pendingExpense).baseAmountCents =
      some (jsRound ((pendingExpense.amountLocalCents : ℚ) *
        ((effPpm scenarioEnv.settings 1450000 FxSource.frankfurter : ℤ) : ℚ) / ((PPM : ℤ) : ℚ))) ∧
    sumBaseCents [syncExpense scenarioEnv pendingExpense] =
      jsRound ((pendingExpense.amountLocalCents : ℚ) *
        ((effPpm scenarioEnv.settings 1450000 FxSource.frankfurter : ℤ) : ℚ) / ((PPM : ℤ) : ℚ)) + sumBaseCents [] ∧
    syncPendingExpenses scenarioEnv [pendingExpense] =
      syncExpense scenarioEnv pendingExpense :: syncPendingExpenses scenarioEnv [] :=
  sumBaseCents_pending_sync [] pendingExpense scenarioEnv 1450000 FxSource.frankfurter
    rfl rfl (by decide)
    (by unfold getOrFetchRate
        simp [pendingExpense, scenarioEnv, scenarioSettings, getFxRatePpmExact,
          ratesGetTruthy, ratesGet, String.toUpper, String.map_eq])

/-! ## C2 — backward-fallback monotonicity -/

/-- C2: with exactly the cached rows `r1, r2, r3` at dates `D1 < D2 < D3`,
each carrying a rate for the requested currency, and live fetch failing,
`getOrFetchRate` at a date after `D3` returns the `D3` rate, and at a date
before `D1` returns the `D1` (oldest) rate rather than failing. -/
theorem getOrFetchRate_backward_fallback (env : Env) (r1 r2 r3 : FxRow) (cur : String)
    (p1 p3 : ℤ) (dlo dhi : ℤ)
    (hrows : env.fxRates = [r1, r2, r3])
    (h12 : r1.date < r2.date) (h23 : r2.date < r3.date)
    (hfetch : ∀ d c, env.fetchRate d c = none)
    (hne : cur.toUpper ≠ env.settings.homeCurrency.toUpper)
    (hne2 : cur.toUpper.toUpper ≠ env.settings.homeCurrency.toUpper)
    (hp1 : ratesGetTruthy r1.rates cur.toUpper = some p1)
    (hp3 : ratesGetTruthy r3.rates cur.toUpper = some p3)
    (hhi : r3.date < dhi) (hlo : dlo < r1.date) :
    getOrFetchRate env dhi cur = some (p3, FxSource.frankfurter) ∧
    getOrFetchRate env dlo cur = some (p1, FxSource.frankfurter) := by
  have hsort : sortDesc (·.date) [r1, r2, r3] = [r3, r2, r1] := by
    unfold sortDesc
    simp [List.insertionSort, List.orderedInsert,
      not_le.mpr h23, not_le.mpr (h12.trans h23), not_le.mpr h12]
  have hfC : ∀ d, fetchAndCacheRate env d cur.toUpper = none := by
    intro d
    unfold fetchAndCacheRate
    rw [if_neg hne2]
    simp [hfetch]
  constructor
  · have hexact : getFxRatePpmExact env.fxRates dhi cur.toUpper = none := by
      unfold getFxRatePpmExact
      simp [hrows, List.find?,
        (show ¬ r1.date = dhi by omega), (show ¬ r2.date = dhi by omega),
        (show ¬ r3.date = dhi by omega)]
    have hfall : getFxRowAtOrBefore env.fxRates (some dhi) = some r3 := by
      unfold getFxRowAtOrBefore
      simp [hrows, hsort, List.find?, le_of_lt hhi]
    unfold getOrFetchRate
    rw [if_neg hne]
    simp only [hexact, hfC, hfall, hp3]
  · have hexact : getFxRatePpmExact env.fxRates dlo cur.toUpper = none := by
      unfold getFxRatePpmExact
      simp [hrows, List.find?,
        (show ¬ r1.date = dlo by omega), (show ¬ r2.date = dlo by omega),
        (show ¬ r3.date = dlo by omega)]
    have hfall : getFxRowAtOrBefore env.fxRates (some dlo) = some r1 := by
      unfold getFxRowAtOrBefore
      simp [hrows, hsort, List.find?,
        (show ¬ r3.date ≤ dlo by omega), (show ¬ r2.date ≤ dlo by omega),
        (show ¬ r1.date ≤ dlo by omega), List.getLast?]
    unfold getOrFetchRate
    rw [if_neg hne]
    simp only [hexact, hfC, hfall, hp1]

/-- C2 witness: a request after the newest row resolves to the newest row's
rate; a request before the oldest row resolves to the oldest row's rate. -/
theorem getOrFetchRate_backward_fallback_witness :
    getOrFetchRate fallbackEnv 20260215 "EUR" = some (1450000, FxSource.frankfurter) ∧
    getOrFetchRate fallbackEnv 20260101 "EUR" = some (1400000, FxSource.frankfurter) :=
  getOrFetchRate_backward_fallback fallbackEnv fallbackRow1 fallbackRow2 fallbackRow3
    "EUR" 1400000 1450000 20260101 20260215
    rfl (by decide) (by decide) (fun _ _ => rfl)
    (by simp [fallbackEnv, scenarioSettings, String.toUpper, String.map_eq])
    (by simp [fallbackEnv, scenarioSettings, String.toUpper, String.map_eq])
    (by simp [fallbackRow1, ratesGetTruthy, ratesGet, String.toUpper, String.map_eq])
    (by simp [fallbackRow3, ratesGetTruthy, ratesGet, String.toUpper, String.map_eq])
    (by decide) (by decide)

/-! ## C3 — idempotent re-derivation -/

theorem addExpense_ok_fields (env : Env) (newId tripId : String) (inp : NewExpenseInput)
    (e : Expense) (h : addExpense env newId tripId inp = Except.ok e) :
    e.date = inp.date ∧ e.currency = inp.currency.toUpper ∧ e.method = inp.method ∧
    e.amountLocalCents = toCents inp.amountLocal := by
  unfold addExpense at h
  dsimp only at h
  split at h
  · split at h
    · cases h; exact ⟨rfl, rfl, rfl, rfl⟩
    · split at h
      · cases h
      · cases h; exact ⟨rfl, rfl, rfl, rfl⟩
  · split at h
    · cases h
    · cases h; exact ⟨rfl, rfl, rfl, rfl⟩
    · cases h; exact ⟨rfl, rfl, rfl, rfl⟩

theorem update_matches_add (env : Env) (newId tripId : String) (exp0 : Expense)
    (inp inp' : NewExpenseInput)
    (hdate : inp'.date = inp.date) (hcur : inp'.currency.toUpper = inp.currency.toUpper)
    (hmeth : inp'.method = inp.method) (hamt : toCents inp'.amountLocal = toCents inp.amountLocal) :
    Except.map fxFields (updateExpense env exp0 inp') =
      Except.map fxFields (addExpense env newId tripId inp) := by
  unfold addExpense updateExpense
  dsimp only
  rw [hdate, hcur, hmeth, hamt]
  by_cases hm : inp.method = "cash"
  · simp only [hm, reduceIte, if_true]
    by_cases hid : inp.currency.toUpper = env.settings.homeCurrency.toUpper
    · simp only [if_pos hid]
      rfl
    · simp only [if_neg hid]
      cases hpick : pickCashBatchFor env inp.date inp.currency.toUpper with
      | none => rfl
      | some b => rfl
  · simp only [if_neg hm]
    cases hr : getOrFetchRate env inp.date inp.currency.toUpper with
    | some r => rfl
    | none =>
      cases honline : env.online with
      | false => rfl
      | true =>
        cases hf : fetchAndCacheRate env inp.date inp.currency.toUpper with
        | some r => rfl
        | none =>
          cases hrow : getFxRowAtOrBefore env.fxRates (some inp.date) with
          | none => rfl
          | some row =>
            cases ht : ratesGetTruthy row.rates inp.currency.toUpper with
            | none => simp only [ht]; rfl
            | some p => simp only [ht]; rfl

/-- C3: updating an expense produced by `addExpense`, passing back its own
current field values, against the same environment (cached rates, settings,
cash batches, connectivity and fetch behaviour all unchanged), succeeds and
leaves `baseAmountCents`, `fxRatePpm` and `fxSource` unchanged. -/
theorem updateExpense_idempotent (env : Env) (newId tripId : String)
    (inp inp' : NewExpenseInput) (e : Expense)
    (hadd : addExpense env newId tripId inp = Except.ok e)
    (hdate : inp'.date = e.date) (hcur : inp'.currency.toUpper = e.currency)
    (hmeth : inp'.method = e.method)
    (hamt : toCents inp'.amountLocal = e.amountLocalCents) :
    ∃ e2, updateExpense env e inp' = Except.ok e2 ∧
      e2.baseAmountCents = e.baseAmountCents ∧ e2.fxRatePpm = e.fxRatePpm ∧
      e2.fxSource = e.fxSource := by
  obtain ⟨hd, hc, hm, ha⟩ := addExpense_ok_fields env newId tripId inp e hadd
  have hmatch := update_matches_add env newId tripId e inp inp'
    (by rw [hdate, hd]) (by rw [hcur, hc]) (by rw [hmeth, hm]) (by rw [hamt, ha])
  rw [hadd] at hmatch
  cases hu : updateExpense env e inp' with
  | error msg =>
    rw [hu] at hmatch
    simp [Except.map] at hmatch
  | ok e2 =>
    rw [hu] at hmatch
    simp only [Except.map, Except.ok.injEq] at hmatch
    have h2 : e2.baseAmountCents = e.baseAmountCents ∧ e2.fxRatePpm = e.fxRatePpm ∧
        e2.fxSource = e.fxSource := by
      have hcopy := hmatch
      simp only [fxFields, Prod.mk.injEq] at hcopy
      exact hcopy
    exact ⟨e2, rfl, h2⟩

/-- C3 witness: the scenario credit expense, updated with its own values,
keeps its derived fields. -/
theorem updateExpense_idempotent_witness :
    addExpense scenarioEnv "e3" "t1" scenarioCreditInput = Except.ok creditExpenseResult ∧
    ∃ e2, updateExpense scenarioEnv creditExpenseResult scenarioCreditInput = Except.ok e2 ∧
      e2.baseAmountCents = creditExpenseResult.baseAmountCents ∧
      e2.fxRatePpm = creditExpenseResult.fxRatePpm ∧
      e2.fxSource = creditExpenseResult.fxSource := by
  have hEUR : ("EUR" : String).toUpper = "EUR" := by simp [String.toUpper, String.map_eq]
  have hCAD : ("CAD" : String).toUpper = "CAD" := by simp [String.toUpper, String.map_eq]
  have hadd : addExpense scenarioEnv "e3" "t1" scenarioCreditInput =
      Except.ok creditExpenseResult := by
    norm_num [addExpense, getOrFetchRate, getFxRatePpmExact, ratesGetTruthy, ratesGet,
      scenarioEnv, scenarioSettings, scenarioCreditInput, creditExpenseResult,
      hEUR, hCAD, effPpm, applyFeePpm, toCents, jsRound, PPM,
      fetchAndCacheRate, (show ("credit" : String) ≠ "cash" by decide),
      (show ("EUR" : String) ≠ "CAD" by decide),
      (show FxSource.frankfurter ≠ FxSource.identity by decide)]
  refine ⟨hadd, updateExpense_idempotent scenarioEnv "e3" "t1"
    scenarioCreditInput scenarioCreditInput creditExpenseResult hadd
    rfl ?_ rfl ?_⟩
  · simp [scenarioCreditInput, creditExpenseResult, String.toUpper, String.map_eq]
  · norm_num [scenarioCreditInput, creditExpenseResult, toCents, jsRound]
